import Mathlib

/-!
Shallow embedding of `src/storage.js` from the hathor-wallet repository:
the `LocalStorageStore` class — the wallet's local credential store and
migration engine.  The browser `localStorage`, the LevelDB-backed
structured storage facade, and the process-wide network configuration are
folded into one explicit `State`; every method of the class becomes a
function from `State` (and its arguments) to its result paired with the
successor `State`.  JavaScript exceptions are modelled with `Except`.

The cryptographic capability (`CryptoJS`, `cryptoUtils`, `walletUtils`
from the external `@hathor/wallet-lib` package) is opaque to the
repository; it is modelled from the spec's description: perfect symmetric
encryption (decryption succeeds exactly under the encrypting password) and
an ideal password-hash record carrying salt and iteration metadata.
-/

namespace LocalStorageStore

/-- Modelled from the spec: an AES ciphertext produced by the
Cryptographic Capability.  Perfect-encryption model: the ciphertext is
identified by its plaintext and the password that encrypted it. -/
structure CJSCipher where
  plain : String
  pw : String
deriving DecidableEq, Repr

/-- Modelled from the spec: `CryptoJS.AES.decrypt` followed by UTF-8
decoding.  Decoding throws (`none`) exactly when the password does not
match the one that produced the ciphertext. -/
def decryptCJS (ct : CJSCipher) (pw : String) : Option String :=
  if ct.pw = pw then some ct.plain else none

/-- Modelled from the spec: the opaque digest stored by the password-hash
routine, determined by the password, salt and iteration count. -/
abbrev Digest := String × String × Nat

/-- Modelled from the spec: the PBKDF2-style password hash of the
Cryptographic Capability (ideal, collision-free model). -/
def hashFn (pw salt : String) (iter : Nat) : Digest := (pw, salt, iter)

/-- The current encrypted-secret shape:
`{ data, hash, salt, iterations, pbkdf2Hasher }`. -/
structure EncSecret where
  data : CJSCipher
  hash : Digest
  salt : String
  iterations : Nat
  pbkdf2Hasher : String
deriving DecidableEq, Repr

/-- Modelled from the spec: `cryptoUtils.encryptData` — encrypts under the
password and records explicit hash/salt/iterations/hasher metadata. -/
def encryptData (plain pw : String) : EncSecret :=
  { data := ⟨plain, pw⟩
    hash := hashFn pw "staticsalt" 600000
    salt := "staticsalt"
    iterations := 600000
    pbkdf2Hasher := "sha1" }

/-- Modelled from the spec: `cryptoUtils.checkPassword` — verifies a
password against a stored `{data, hash, salt, iterations}` record,
returning a boolean. -/
def checkPassword (rec : EncSecret) (pw : String) : Bool :=
  decide (rec.hash = hashFn pw rec.salt rec.iterations)

inductive WalletType where
  | P2PKH
  | MultiSig
deriving DecidableEq, Repr

/-- The current (post-migration) access data record. -/
structure AccessData where
  walletType : WalletType
  walletFlags : Nat
  xpubkey : String
  words : EncSecret
  mainKey : EncSecret
  acctPathKey : Option EncSecret
  authKey : Option EncSecret
deriving DecidableEq, Repr

/-- The legacy flat access data record stored under `wallet:accessData`. -/
structure LegacyAccessData where
  xpubkey : String
  words : CJSCipher
  mainKey : CJSCipher
  hash : Digest
  salt : String
  hashIterations : Nat
  pbkdf2Hasher : String
  hashPasswd : Digest
  saltPasswd : String
  acctPathMainKey : Option CJSCipher
  authKey : Option CJSCipher
deriving DecidableEq, Repr

structure Token where
  uid : String
  name : String
  symbol : String
deriving DecidableEq, Repr

/-- JSON-decoded values that can live in a `localStorage` entry. -/
inductive Val where
  | str (s : String)
  | bool (b : Bool)
  | num (n : Nat)
  | legacy (r : LegacyAccessData)
  | tokens (l : List Token)
  | sigs (m : List (String × String))
deriving DecidableEq, Repr

/-- JavaScript truthiness of a decoded value. -/
def Val.truthy : Val → Bool
  | .str s => !(s == "")
  | .bool b => b
  | .num n => !(n == 0)
  | .legacy _ => true
  | .tokens _ => true
  | .sigs _ => true

def Val.truthyOpt : Option Val → Bool
  | none => false
  | some v => v.truthy

/-- A raw `localStorage` entry: either a well-formed JSON serialization of
a value, or (legacy) a raw string that is not valid JSON. -/
inductive Entry where
  | json (v : Val)
  | raw (s : String)
deriving DecidableEq, Repr

-- Storage keys (from the top of src/storage.js).
def WALLET_VERSION_KEY : String := "localstorage:version"
def STORE_VERSION_KEY : String := "localstorage:storeversion"
def LEDGER_APP_VERSION_KEY : String := "localstorage:ledger:version"
def LOCKED_KEY : String := "localstorage:lock"
def CLOSED_KEY : String := "localstorage:closed"
def STARTED_KEY : String := "localstorage:started"
def NETWORK_KEY : String := "localstorage:network"
def IS_HARDWARE_KEY : String := "localstorage:ishardware"
def TOKEN_SIGNATURES_KEY : String := "localstorage:token:signatures"
def IS_BACKUP_DONE_KEY : String := "localstorage:backup"
def SERVER_KEY : String := "localstorage:server"
def WS_SERVER_KEY : String := "localstorage:wsserver"

def storageKeys : List String :=
  [WALLET_VERSION_KEY, STORE_VERSION_KEY, LOCKED_KEY, CLOSED_KEY,
   STARTED_KEY, NETWORK_KEY, IS_HARDWARE_KEY, TOKEN_SIGNATURES_KEY,
   IS_BACKUP_DONE_KEY, SERVER_KEY, WS_SERVER_KEY]

/-- The whole observable state: the flat `localStorage` map, the
LevelDB-backed structured facade (access data and registered tokens keyed
by wallet id), the cached storage handle (`this._storage`, identified by
the wallet id it wraps) and the process-wide network configuration. -/
structure State where
  ls : String → Option Entry
  accessMap : String → Option AccessData
  tokenReg : String → String → Option Token
  handle : Option String
  netName : String

/-- Pointwise update of the flat map. -/
def lsSet (f : String → Option Entry) (k : String) (v : Option Entry) :
    String → Option Entry :=
  fun q => if q = k then v else f q

/-- `setItem(key, value)`: `localStorage.setItem(key, JSON.stringify(value))`. -/
def setItem (s : State) (k : String) (v : Val) : State :=
  { s with ls := lsSet s.ls k (some (.json v)) }

/-- `removeItem(key)`. -/
def removeItem (s : State) (k : String) : State :=
  { s with ls := lsSet s.ls k none }

/-- `getItem(key)`: reads and JSON-parses the entry.  An absent key parses
to `null` (`none`).  A raw non-JSON string makes `JSON.parse` throw a
`SyntaxError`; the catch block re-persists the raw string as JSON and
returns it, so the read can mutate the store. -/
def getItem (s : State) (k : String) : Option Val × State :=
  match s.ls k with
  | none => (none, s)
  | some (.json v) => (some v, s)
  | some (.raw str) => (some (.str str), setItem s k (.str str))

/-- Modelled from the spec: `walletUtils.getWalletIdFromXPub` —
deterministic derivation of the wallet identifier from an extended public
key. -/
def getWalletIdFromXPub (xpub : String) : String := "wid:" ++ xpub

/-- `getWalletId()`: reads the `wallet:id` entry. -/
def getWalletId (s : State) : Option Val × State := getItem s "wallet:id"

/-- `setWalletId(walletId)`. -/
def setWalletId (s : State) (walletId : String) : State :=
  setItem s "wallet:id" (.str walletId)

/-- `isLoadedSync()`: `(!!this.getWalletId()) || (!!this.getItem('wallet:accessData'))`,
with JavaScript short-circuit evaluation. -/
def isLoadedSync (s : State) : Bool × State :=
  let p := getWalletId s
  if Val.truthyOpt p.1 then (true, p.2)
  else
    let q := getItem p.2 "wallet:accessData"
    (Val.truthyOpt q.1, q.2)

def setHardwareWallet (s : State) (value : Bool) : State :=
  setItem s IS_HARDWARE_KEY (.bool value)

def isHardwareWallet (s : State) : Bool × State :=
  let p := getItem s IS_HARDWARE_KEY
  (Val.truthyOpt p.1, p.2)

/-- `cleanWallet()`. -/
def cleanWallet (s : State) : State :=
  let s1 := removeItem s "wallet:id"
  let s2 := removeItem s1 IS_HARDWARE_KEY
  let s3 := removeItem s2 CLOSED_KEY
  { s3 with handle := none }

/-- `resetStorage()`: removes `wallet:id` and every key of `storageKeys`. -/
def resetStorage (s : State) : State :=
  storageKeys.foldl removeItem (removeItem s "wallet:id")

/-- `getStorage()`: returns the cached storage handle, lazily constructing
it from the persisted wallet id.  The handle is identified by the wallet
id it wraps; `null` is returned when no wallet id is persisted.  (A
non-string truthy wallet id cannot be produced by this class; that arm is
modelled as no handle.) -/
def getStorage (s : State) : Option String × State :=
  match s.handle with
  | some w => (some w, s)
  | none =>
    let p := getWalletId s
    match p.1 with
    | none => (none, p.2)
    | some v =>
      if v.truthy then
        match v with
        | .str w => (some w, { p.2 with handle := some w })
        | _ => (none, p.2)
      else (none, p.2)

/-- `storage.saveAccessData(accessData)` on the facade handle `w`
(modelled from the spec: the Structured Storage Facade persists the record
under the wallet-id namespace). -/
def saveAccessData (s : State) (w : String) (ad : AccessData) : State :=
  { s with accessMap := fun q => if q = w then some ad else s.accessMap q }

/-- `_getAccessData()`: reads the access data of the loaded wallet through
the facade, `null` when no wallet is loaded. -/
def getAccessDataViaFacade (s : State) : Option AccessData × State :=
  match getStorage s with
  | (none, s1) => (none, s1)
  | (some w, s1) => (s1.accessMap w, s1)

/-- The access data as found: legacy flat shape, current nested shape, or
(unreachable for states written by this class) some other truthy value. -/
inductive AvailAccess where
  | legacy (r : LegacyAccessData)
  | current (a : AccessData)
  | other (v : Val)
deriving DecidableEq, Repr

/-- `getAvailableAccessData()`: prefer the legacy `wallet:accessData`
entry when truthy, otherwise fall back to the facade. -/
def getAvailableAccessData (s : State) : Option AvailAccess × State :=
  let p := getItem s "wallet:accessData"
  match p.1 with
  | some w =>
    if w.truthy then
      match w with
      | .legacy r => (some (AvailAccess.legacy r), p.2)
      | v => (some (AvailAccess.other v), p.2)
    else
      match getAccessDataViaFacade p.2 with
      | (none, s2) => (none, s2)
      | (some ad, s2) => (some (AvailAccess.current ad), s2)
  | none =>
    match getAccessDataViaFacade p.2 with
    | (none, s2) => (none, s2)
    | (some ad, s2) => (some (AvailAccess.current ad), s2)

/-- The schema constant `version = 1` of the class. -/
def version : Nat := 1

/-- `getStorageVersion()`. -/
def getStorageVersion (s : State) : Option Val × State :=
  getItem s STORE_VERSION_KEY

/-- `updateStorageVersion()`: stamps the current schema constant. -/
def updateStorageVersion (s : State) : State :=
  setItem s STORE_VERSION_KEY (.num version)

/-- `registerToken` of the Structured Storage Facade (modelled from the
spec: the new storage keys each token by its uid). -/
def registerToken (s : State) (w : String) (t : Token) : State :=
  { s with
    tokenReg := fun wq uq =>
      if wq = w ∧ uq = t.uid then some t else s.tokenReg wq uq }

def registerTokens (s : State) (w : String) (ts : List Token) : State :=
  ts.foldl (fun acc t => registerToken acc w t) s

/-- `handleMigrationOldRegisteredTokens(storage)`: registers every token
of the legacy `wallet:tokens` list into the facade.  A falsy or absent
entry is skipped. -/
def handleMigrationOldRegisteredTokens (s : State) (w : String) : State :=
  let p := getItem s "wallet:tokens"
  match p.1 with
  | some (.tokens l) => registerTokens p.2 w l
  | _ => p.2

def markBackupDone (s : State) : State :=
  setItem s IS_BACKUP_DONE_KEY (.bool true)

/-- Builds the migrated access data record returned by
`migrateAccessData`: the `words` and `mainKey` ciphertexts are carried
over unchanged and wrapped with the legacy record's stored hash, salt and
iteration metadata. -/
def mkMigrated (old : LegacyAccessData)
    (acctPathKey authKey : Option EncSecret) : AccessData :=
  { walletType := .P2PKH
    walletFlags := 0
    xpubkey := old.xpubkey
    acctPathKey := acctPathKey
    authKey := authKey
    words := { data := old.words, hash := old.hashPasswd,
               salt := old.saltPasswd, iterations := old.hashIterations,
               pbkdf2Hasher := old.pbkdf2Hasher }
    mainKey := { data := old.mainKey, hash := old.hash, salt := old.salt,
                 iterations := old.hashIterations,
                 pbkdf2Hasher := old.pbkdf2Hasher } }

/-- `migrateAccessData(pin)`: decrypts `acctPathMainKey` and `authKey`
(when present) with the PIN, re-encrypting them under the current
encrypted-secret shape, and wraps the untouched `words`/`mainKey`
ciphertexts with their stored metadata.  A failed decryption throws.
(In JavaScript a truthy non-record value under `wallet:accessData` would
flow through with undefined fields; no state written by this class stores
one, and it is modelled as a type error, as is the null case.) -/
def migrateAccessData (s : State) (pin : String) :
    Except String AccessData × State :=
  let p := getItem s "wallet:accessData"
  match p.1 with
  | some (.legacy old) =>
    match old.acctPathMainKey with
    | some c =>
      match decryptCJS c pin with
      | none => (.error "Malformed UTF-8 data", p.2)
      | some acctKeyStr =>
        match old.authKey with
        | some c2 =>
          match decryptCJS c2 pin with
          | none => (.error "Malformed UTF-8 data", p.2)
          | some authKeyStr =>
            (.ok (mkMigrated old (some (encryptData acctKeyStr pin))
              (some (encryptData authKeyStr pin))), p.2)
        | none =>
          (.ok (mkMigrated old (some (encryptData acctKeyStr pin)) none), p.2)
    | none =>
      match old.authKey with
      | some c2 =>
        match decryptCJS c2 pin with
        | none => (.error "Malformed UTF-8 data", p.2)
        | some authKeyStr =>
          (.ok (mkMigrated old none (some (encryptData authKeyStr pin))), p.2)
      | none => (.ok (mkMigrated old none none), p.2)
  | some _ => (.error "TypeError: malformed legacy access data", p.2)
  | none => (.error "TypeError: cannot read properties of null", p.2)

/-- The legacy backup-flag carry-over step of `handleDataMigration`. -/
def backupStep (s : State) : State :=
  let p := getItem s "wallet:backup"
  if Val.truthyOpt p.1 then markBackupDone p.2 else p.2

/-- `key.startsWith('wallet:')` of the deletion loop, expressed over the
character list of the key. -/
def walletPrefixed (k : String) : Bool :=
  "wallet:".data.isPrefixOf k.data

/-- The legacy-key deletion loop of `handleDataMigration`: removes every
flat key prefixed `wallet:` except `wallet:id` (pointwise model of the
`Object.keys(localStorage)` loop; the removals are independent, so the
iteration order is irrelevant). -/
def deleteWalletPrefixed (s : State) : State :=
  { s with
    ls := fun k =>
      if (k != "wallet:id") && walletPrefixed k then none
      else s.ls k }

/-- The tail of the migration branch of `handleDataMigration`, after
`migrateAccessData` has produced the new record. -/
def migrationTail (s : State) (ad : AccessData) :
    Except String Unit × State :=
  let s3 : State := { s with handle := none }
  let s4 := setHardwareWallet s3 false
  let wid := getWalletIdFromXPub ad.xpubkey
  let s5 := setWalletId s4 wid
  match getStorage s5 with
  | (none, s6) => (.error "TypeError: cannot save on null storage", s6)
  | (some w, s6) =>
    let s7 := saveAccessData s6 w ad
    let s8 := handleMigrationOldRegisteredTokens s7 w
    let s10 := backupStep s8
    let s11 := deleteWalletPrefixed s10
    (.ok (), updateStorageVersion s11)

/-- `handleDataMigration(pin)`: when the storage version is `null`, run
`migrateAccessData`, persist the result, carry over tokens and the backup
flag, delete the legacy `wallet:`-prefixed keys, and (on every path that
does not throw) stamp the current storage version. -/
def handleDataMigration (s : State) (pin : String) :
    Except String Unit × State :=
  let p := getStorageVersion s
  match p.1 with
  | none =>
    match migrateAccessData p.2 pin with
    | (.error e, s2) => (.error e, s2)
    | (.ok ad, s2) => migrationTail s2 ad
  | some _ => (.ok (), updateStorageVersion p.2)

/-- `checkPin(pinCode)`: fetch the available access data; the legacy flat
shape (whose `mainKey` is a bare ciphertext, detected in JavaScript by the
`!mainEncryptedData.data` probe) is normalized into an encrypted-secret
record before delegating to `checkPassword`.  Reading a field of a missing
record throws. -/
def checkPin (s : State) (pinCode : String) : Except String Bool × State :=
  match getAvailableAccessData s with
  | (none, s1) => (.error "TypeError: cannot read mainKey of null", s1)
  | (some (.legacy r), s1) =>
    (.ok (checkPassword
      { data := r.mainKey, hash := r.hash, salt := r.salt,
        iterations := r.hashIterations, pbkdf2Hasher := r.pbkdf2Hasher }
      pinCode), s1)
  | (some (.current ad), s1) => (.ok (checkPassword ad.mainKey pinCode), s1)
  | (some (.other _), s1) =>
    (.error "TypeError: cannot read data of undefined", s1)

/-- Modelled from the spec: `walletUtils.generateAccessDataFromSeed` of
the Cryptographic Capability — derives a fresh access data record from a
seed, password-protecting the seed words and PIN-protecting the derived
keys, scoped to the configured network.  Derivation fails on an invalid
seed. -/
def generateAccessDataFromSeed (seed pin passphrase password netName :
    String) : Except String AccessData :=
  if seed = "" then .error "Invalid words" else
  .ok { walletType := .P2PKH
        walletFlags := 0
        xpubkey := "xpub:" ++ netName ++ ":" ++ passphrase ++ ":" ++ seed
        words := encryptData seed password
        mainKey := encryptData ("xprv:" ++ seed) pin
        acctPathKey := some (encryptData ("acct:" ++ seed) pin)
        authKey := some (encryptData ("auth:" ++ seed) pin) }

/-- Modelled from the spec: `walletUtils.generateAccessDataFromXpub` —
hardware-mode access data derived from an extended public key only; no
local secret key material (placeholder empty secrets). -/
def generateAccessDataFromXpub (xpub : String) : AccessData :=
  { walletType := .P2PKH
    walletFlags := 0
    xpubkey := xpub
    words := { data := ⟨"", ""⟩, hash := hashFn "" "" 0, salt := "",
               iterations := 0, pbkdf2Hasher := "sha1" }
    mainKey := { data := ⟨"", ""⟩, hash := hashFn "" "" 0, salt := "",
                 iterations := 0, pbkdf2Hasher := "sha1" }
    acctPathKey := none
    authKey := none }

/-- `initStorage(seed, password, pin, passphrase)`. -/
def initStorage (s : State) (seed password pin passphrase : String) :
    Except String Unit × State :=
  let s1 : State := { s with handle := none }
  let s2 := setHardwareWallet s1 false
  match generateAccessDataFromSeed seed pin passphrase password s2.netName with
  | .error e => (.error e, s2)
  | .ok ad =>
    let wid := getWalletIdFromXPub ad.xpubkey
    let s3 := setWalletId s2 wid
    match getStorage s3 with
    | (none, s4) => (.error "TypeError: cannot save on null storage", s4)
    | (some w, s4) =>
      let s5 := saveAccessData s4 w ad
      (.ok (), updateStorageVersion s5)

/-- `initHWStorage(xpub)`. -/
def initHWStorage (s : State) (xpub : String) :
    Except String Unit × State :=
  let s1 : State := { s with handle := none }
  let s2 := setHardwareWallet s1 true
  let ad := generateAccessDataFromXpub xpub
  let wid := getWalletIdFromXPub ad.xpubkey
  let s3 := setWalletId s2 wid
  match getStorage s3 with
  | (none, s4) => (.error "TypeError: cannot save on null storage", s4)
  | (some w, s4) =>
    let s5 := saveAccessData s4 w ad
    (.ok (), updateStorageVersion s5)

-- Settings and flag management.

/-- `setServers(serverURL, wsServerURL)`: persists the fullnode URL, and —
as written in the source — persists `serverURL` (not `wsServerURL`) under
the websocket-server key whenever `wsServerURL` is truthy. -/
def setServers (s : State) (serverURL wsServerURL : String) : State :=
  let s1 := setItem s SERVER_KEY (.str serverURL)
  if wsServerURL != "" then setItem s1 WS_SERVER_KEY (.str serverURL) else s1

def getServer (s : State) : Option Val × State := getItem s SERVER_KEY

def getWsServer (s : State) : Option Val × State := getItem s WS_SERVER_KEY

def lock (s : State) : State := setItem s LOCKED_KEY (.bool true)

def unlock (s : State) : State := setItem s LOCKED_KEY (.bool false)

/-- `isLocked()`: `this.getItem(LOCKED_KEY) ?? true`. -/
def isLocked (s : State) : Bool × State :=
  let p := getItem s LOCKED_KEY
  match p.1 with
  | none => (true, p.2)
  | some v => (v.truthy, p.2)

def close (s : State) : State := setItem s CLOSED_KEY (.bool true)

/-- `open()` of the source (`open` is a Lean keyword). -/
def openWallet (s : State) : State := setItem s CLOSED_KEY (.bool false)

/-- `wasClosed()`: `this.getItem(CLOSED_KEY) || false`. -/
def wasClosed (s : State) : Bool × State :=
  let p := getItem s CLOSED_KEY
  (Val.truthyOpt p.1, p.2)

def markWalletAsStarted (s : State) : State :=
  setItem s STARTED_KEY (.bool true)

def wasStarted (s : State) : Option Val × State := getItem s STARTED_KEY

def setNetwork (s : State) (networkName : String) : State :=
  let s1 := setItem s NETWORK_KEY (.str networkName)
  { s1 with netName := networkName }

def getNetwork (s : State) : Option Val × State := getItem s NETWORK_KEY

def getTokenSignatures (s : State) : List (String × String) × State :=
  let p := getItem s TOKEN_SIGNATURES_KEY
  match p.1 with
  | some (.sigs m) => (m, p.2)
  | _ => ([], p.2)

def setTokenSignatures (s : State) (data : List (String × String)) : State :=
  setItem s TOKEN_SIGNATURES_KEY (.sigs data)

def resetTokenSignatures (s : State) : State :=
  removeItem s TOKEN_SIGNATURES_KEY

def markBackupAsNotDone (s : State) : State :=
  removeItem s IS_BACKUP_DONE_KEY

def isBackupDone (s : State) : Bool × State :=
  let p := getItem s IS_BACKUP_DONE_KEY
  (Val.truthyOpt p.1, p.2)

def saveLedgerAppVersion (s : State) (v : String) : State :=
  setItem s LEDGER_APP_VERSION_KEY (.str v)

def getLedgerAppVersion (s : State) : Option Val × State :=
  getItem s LEDGER_APP_VERSION_KEY

-- Derived predicates and concrete states used by the theorems below.

/-- Decryption of an optional legacy secret field fails under `pin`. -/
def optDecryptFails (o : Option CJSCipher) (pin : String) : Bool :=
  match o with
  | none => false
  | some c => (decryptCJS c pin).isNone

/-- Decryption of the legacy secret fields that `migrateAccessData`
decrypts (`acctPathMainKey`, `authKey`) fails under `pin`. -/
def legacyDecryptFails (r : LegacyAccessData) (pin : String) : Bool :=
  optDecryptFails r.acctPathMainKey pin || optDecryptFails r.authKey pin

/-- No persisted wallet identity points at absent access data. -/
def walletIdInv (s : State) : Prop :=
  ∀ w, s.ls "wallet:id" = some (.json (.str w)) →
    Val.truthy (.str w) = true → ∃ ad, s.accessMap w = some ad

/-- The `words.data` ciphertext of the access data produced by
`migrateAccessData`, `none` when the migration throws. -/
def migratedWordsData (s : State) (pin : String) : Option CJSCipher :=
  match (migrateAccessData s pin).1 with
  | .ok ad => some ad.words.data
  | .error _ => none

/-- The auxiliary account-path secret produced by the migration for a
given legacy record and PIN: absent when the legacy field is absent,
otherwise the decrypted key re-encrypted under the PIN. -/
def migAcct (r : LegacyAccessData) (pin : String) : Option EncSecret :=
  r.acctPathMainKey.map (fun c => encryptData ((decryptCJS c pin).getD "") pin)

/-- The auxiliary auth secret produced by the migration. -/
def migAuth (r : LegacyAccessData) (pin : String) : Option EncSecret :=
  r.authKey.map (fun c => encryptData ((decryptCJS c pin).getD "") pin)

/-- An empty store. -/
def emptyState : State :=
  { ls := fun _ => none
    accessMap := fun _ => none
    tokenReg := fun _ _ => none
    handle := none
    netName := "mainnet" }

/-- A store with one extra flat entry. -/
def putKey (s : State) (k : String) (e : Entry) : State :=
  { s with ls := lsSet s.ls k (some e) }

/-- A legacy record whose auxiliary keys are protected by PIN `"1234"`
and whose seed words are protected by the password `"password1"`. -/
def legacyFull : LegacyAccessData :=
  { xpubkey := "xpub-legacy"
    words := ⟨"apple banana cherry", "password1"⟩
    mainKey := ⟨"xprv-legacy", "1234"⟩
    hash := hashFn "1234" "salt-pin" 1000
    salt := "salt-pin"
    hashIterations := 1000
    pbkdf2Hasher := "sha1"
    hashPasswd := hashFn "password1" "salt-passwd" 1000
    saltPasswd := "salt-passwd"
    acctPathMainKey := some ⟨"acct-xprv", "1234"⟩
    authKey := some ⟨"auth-xprv", "1234"⟩ }

/-- A legacy record with no auxiliary keys. -/
def legacyBare : LegacyAccessData :=
  { legacyFull with acctPathMainKey := none, authKey := none }

/-- An unmigrated store holding `legacyFull` (no storage version). -/
def legacyState : State :=
  putKey emptyState "wallet:accessData" (.json (.legacy legacyFull))

/-- An unmigrated store holding `legacyBare`. -/
def legacyBareState : State :=
  putKey emptyState "wallet:accessData" (.json (.legacy legacyBare))

/-- A store already stamped with the current storage version. -/
def versionedState : State :=
  putKey emptyState STORE_VERSION_KEY (.json (.num 1))

/-- A store with a raw (non-JSON) legacy entry. -/
def rawEntryState : State :=
  putKey emptyState "legacy:server" (.raw "https://host.domain")

-- Helper lemmas about the primitive operations.

@[simp] theorem lsSet_same (f : String → Option Entry) (k : String)
    (v : Option Entry) : lsSet f k v k = v := by
  simp [lsSet]

theorem lsSet_other (f : String → Option Entry) (k : String)
    (v : Option Entry) (q : String) (h : q ≠ k) : lsSet f k v q = f q := by
  simp [lsSet, h]

theorem setItem_ls (s : State) (k : String) (v : Val) (q : String) :
    (setItem s k v).ls q = if q = k then some (.json v) else s.ls q := by
  simp [setItem, lsSet]

theorem removeItem_ls (s : State) (k q : String) :
    (removeItem s k).ls q = if q = k then none else s.ls q := by
  simp [removeItem, lsSet]

@[simp] theorem setItem_accessMap (s : State) (k : String) (v : Val) :
    (setItem s k v).accessMap = s.accessMap := rfl

@[simp] theorem setItem_tokenReg (s : State) (k : String) (v : Val) :
    (setItem s k v).tokenReg = s.tokenReg := rfl

@[simp] theorem setItem_handle (s : State) (k : String) (v : Val) :
    (setItem s k v).handle = s.handle := rfl

@[simp] theorem setItem_netName (s : State) (k : String) (v : Val) :
    (setItem s k v).netName = s.netName := rfl

@[simp] theorem removeItem_accessMap (s : State) (k : String) :
    (removeItem s k).accessMap = s.accessMap := rfl

@[simp] theorem removeItem_handle (s : State) (k : String) :
    (removeItem s k).handle = s.handle := rfl

@[simp] theorem removeItem_tokenReg (s : State) (k : String) :
    (removeItem s k).tokenReg = s.tokenReg := rfl

@[simp] theorem removeItem_netName (s : State) (k : String) :
    (removeItem s k).netName = s.netName := rfl

theorem getItem_of_none (s : State) (k : String) (h : s.ls k = none) :
    getItem s k = (none, s) := by
  simp [getItem, h]

theorem getItem_of_json (s : State) (k : String) (v : Val)
    (h : s.ls k = some (.json v)) : getItem s k = (some v, s) := by
  simp [getItem, h]

theorem getItem_of_raw (s : State) (k : String) (str : String)
    (h : s.ls k = some (.raw str)) :
    getItem s k = (some (.str str), setItem s k (.str str)) := by
  simp [getItem, h]

theorem getItem_ls_frame (s : State) (k q : String) (h : q ≠ k) :
    (getItem s k).2.ls q = s.ls q := by
  unfold getItem
  cases hE : s.ls k with
  | none => rfl
  | some e =>
    cases e with
    | json v => rfl
    | raw str => simp [setItem, lsSet_other _ _ _ _ h]

@[simp] theorem getItem_accessMap (s : State) (k : String) :
    (getItem s k).2.accessMap = s.accessMap := by
  unfold getItem
  cases hE : s.ls k with
  | none => rfl
  | some e => cases e with
    | json v => rfl
    | raw str => rfl

@[simp] theorem getItem_tokenReg (s : State) (k : String) :
    (getItem s k).2.tokenReg = s.tokenReg := by
  unfold getItem
  cases hE : s.ls k with
  | none => rfl
  | some e => cases e with
    | json v => rfl
    | raw str => rfl

@[simp] theorem getItem_handle (s : State) (k : String) :
    (getItem s k).2.handle = s.handle := by
  unfold getItem
  cases hE : s.ls k with
  | none => rfl
  | some e => cases e with
    | json v => rfl
    | raw str => rfl

@[simp] theorem getItem_netName (s : State) (k : String) :
    (getItem s k).2.netName = s.netName := by
  unfold getItem
  cases hE : s.ls k with
  | none => rfl
  | some e => cases e with
    | json v => rfl
    | raw str => rfl

theorem getWalletIdFromXPub_ne_empty (xpub : String) :
    getWalletIdFromXPub xpub ≠ "" := by
  intro h
  have hlen := congrArg String.length h
  simp only [getWalletIdFromXPub, String.length_append,
    String.length_empty] at hlen
  have h4 : ("wid:" : String).length = 4 := by decide
  rw [h4] at hlen
  omega

theorem getWalletIdFromXPub_truthy (xpub : String) :
    Val.truthy (.str (getWalletIdFromXPub xpub)) = true := by
  simp [Val.truthy, getWalletIdFromXPub_ne_empty xpub]

theorem foldl_removeItem_ls (keys : List String) (s : State) (k : String) :
    (keys.foldl removeItem s).ls k = if k ∈ keys then none else s.ls k := by
  induction keys generalizing s with
  | nil => simp
  | cons a as ih =>
    rw [List.foldl_cons, ih]
    by_cases hk : k ∈ as
    · simp [hk]
    · by_cases ha : k = a
      · subst ha; simp [hk, removeItem_ls]
      · simp [hk, ha, removeItem_ls]

theorem foldl_removeItem_accessMap (keys : List String) (s : State) :
    (keys.foldl removeItem s).accessMap = s.accessMap := by
  induction keys generalizing s with
  | nil => rfl
  | cons a as ih => rw [List.foldl_cons, ih, removeItem_accessMap]

theorem foldl_removeItem_handle (keys : List String) (s : State) :
    (keys.foldl removeItem s).handle = s.handle := by
  induction keys generalizing s with
  | nil => rfl
  | cons a as ih => rw [List.foldl_cons, ih, removeItem_handle]

theorem resetStorage_ls (s : State) (k : String) :
    (resetStorage s).ls k =
      if k = "wallet:id" ∨ k ∈ storageKeys then none else s.ls k := by
  unfold resetStorage
  rw [foldl_removeItem_ls]
  by_cases h1 : k ∈ storageKeys
  · simp [h1]
  · by_cases h2 : k = "wallet:id"
    · simp [h1, h2, removeItem_ls]
    · simp [h1, h2, removeItem_ls]

-- Claim theorems.

/-- C9: a stored raw non-JSON string entry is recovered by `getItem`: the
parse failure is caught, the raw string is re-persisted as JSON under the
same key (all other keys untouched) and returned; a subsequent `getItem`
of the key returns the same string by normal JSON parsing without
mutating the store again. -/
theorem getItem_raw_recovery (s : State) (k str : String)
    (h : s.ls k = some (.raw str)) :
    (getItem s k).1 = some (.str str) ∧
    (getItem s k).2.ls k = some (.json (.str str)) ∧
    (∀ q, q ≠ k → (getItem s k).2.ls q = s.ls q) ∧
    getItem (getItem s k).2 k = (some (.str str), (getItem s k).2) := by
  rw [getItem_of_raw s k str h]
  refine ⟨rfl, by simp [setItem], ?_, ?_⟩
  · intro q hq
    simp [setItem, lsSet_other _ _ _ _ hq]
  · exact getItem_of_json _ _ _ (by simp [setItem])

/-- Witness for C9 at a concrete raw entry. -/
theorem getItem_raw_recovery_witness :
    (getItem rawEntryState "legacy:server").1
        = some (.str "https://host.domain") ∧
    (getItem rawEntryState "legacy:server").2.ls "legacy:server"
        = some (.json (.str "https://host.domain")) ∧
    (getItem rawEntryState "legacy:server").2.ls "wallet:id"
        = rawEntryState.ls "wallet:id" ∧
    getItem (getItem rawEntryState "legacy:server").2 "legacy:server"
        = (some (.str "https://host.domain"),
           (getItem rawEntryState "legacy:server").2) := by
  have h := getItem_raw_recovery rawEntryState "legacy:server"
    "https://host.domain" (by decide)
  exact ⟨h.1, h.2.1, h.2.2.1 "wallet:id" (by decide), h.2.2.2⟩

/-- C6 (bug evaluation): `setServers(serverURL, wsServerURL)` persists
`serverURL` — not `wsServerURL` — under the websocket-server key, so
`getWsServer()` returns the fullnode URL, contradicting the documented
round-trip for the wallet-service WebSocket server URL. -/
theorem setServers_persists_fullnode_under_ws_key :
    (getWsServer (setServers emptyState "https://fullnode" "wss://wsserver")).1
        = some (.str "https://fullnode") ∧
    (getWsServer (setServers emptyState "https://fullnode" "wss://wsserver")).1
        ≠ some (.str "wss://wsserver") := by
  constructor
  · rfl
  · decide

/-- C10: `resetStorage` removes only the `wallet:id` key and the eleven
enumerated settings keys; every other key — in particular the legacy
`wallet:accessData` record — is untouched, so a state holding a legacy
access-data record still reports `isLoadedSync() = true` right after the
reset. -/
theorem resetStorage_scope (s : State) (r : LegacyAccessData)
    (h : s.ls "wallet:accessData" = some (.json (.legacy r))) :
    (resetStorage s).ls "wallet:id" = none ∧
    (∀ k, k ∈ storageKeys → (resetStorage s).ls k = none) ∧
    (∀ k, k ≠ "wallet:id" → k ∉ storageKeys →
      (resetStorage s).ls k = s.ls k) ∧
    (resetStorage s).accessMap = s.accessMap ∧
    (isLoadedSync (resetStorage s)).1 = true := by
  have hid : (resetStorage s).ls "wallet:id" = none := by
    rw [resetStorage_ls]; simp
  have hacc : (resetStorage s).ls "wallet:accessData"
      = some (.json (.legacy r)) := by
    rw [resetStorage_ls, if_neg (by decide)]
    exact h
  refine ⟨hid, ?_, ?_, ?_, ?_⟩
  · intro k hk
    rw [resetStorage_ls]
    simp [hk]
  · intro k h1 h2
    rw [resetStorage_ls, if_neg (by simp [h1, h2])]
  · unfold resetStorage
    rw [foldl_removeItem_accessMap, removeItem_accessMap]
  · unfold isLoadedSync getWalletId
    rw [getItem_of_none _ _ hid]
    simp only [Val.truthyOpt]
    rw [if_neg (by simp)]
    rw [getItem_of_json _ _ _ hacc]
    simp [Val.truthyOpt, Val.truthy]

/-- Witness for C10 at a concrete pre-reset state. -/
theorem resetStorage_scope_witness :
    (resetStorage legacyState).ls "wallet:id" = none ∧
    (resetStorage legacyState).ls STORE_VERSION_KEY = none ∧
    (resetStorage legacyState).ls "wallet:accessData"
        = legacyState.ls "wallet:accessData" ∧
    (resetStorage legacyState).accessMap = legacyState.accessMap ∧
    (isLoadedSync (resetStorage legacyState)).1 = true := by
  have h := resetStorage_scope legacyState legacyFull (by decide)
  exact ⟨h.1, h.2.1 STORE_VERSION_KEY (by decide),
    h.2.2.1 "wallet:accessData" (by decide) (by decide),
    h.2.2.2.1, h.2.2.2.2⟩

/-- Shared helper: when the storage version is present, the migration
routine only re-stamps the version key. -/
theorem handleDataMigration_versioned (s : State) (pin : String)
    (h : (getStorageVersion s).1 ≠ none) :
    (handleDataMigration s pin).1 = .ok () ∧
    (handleDataMigration s pin).2.ls STORE_VERSION_KEY
        = some (.json (.num version)) ∧
    (∀ k, k ≠ STORE_VERSION_KEY →
      (handleDataMigration s pin).2.ls k = s.ls k) ∧
    (handleDataMigration s pin).2.accessMap = s.accessMap ∧
    (handleDataMigration s pin).2.tokenReg = s.tokenReg ∧
    (handleDataMigration s pin).2.handle = s.handle ∧
    (handleDataMigration s pin).2.netName = s.netName := by
  unfold handleDataMigration
  cases hv : (getStorageVersion s).1 with
  | none => exact absurd hv h
  | some v =>
    simp only [hv]
    refine ⟨trivial, ?_, ?_, ?_, ?_, ?_, ?_⟩
    · simp [updateStorageVersion, setItem]
    · intro k hk
      rw [updateStorageVersion, setItem_ls, if_neg hk]
      exact getItem_ls_frame s _ k hk
    · rw [updateStorageVersion, setItem_accessMap]
      exact getItem_accessMap s _
    · rw [updateStorageVersion, setItem_tokenReg]
      exact getItem_tokenReg s _
    · rw [updateStorageVersion, setItem_handle]
      exact getItem_handle s _
    · rw [updateStorageVersion, setItem_netName]
      exact getItem_netName s _

/-- C3: when `getStorageVersion()` is non-null, `handleDataMigration`
(with any PIN) changes nothing but the storage-version key, which it
re-stamps to the engine's current schema constant: the structured access
data, the wallet identity and every other flat settings key are left
unchanged. -/
theorem handleDataMigration_noop_when_versioned (s : State) (pin : String)
    (h : (getStorageVersion s).1 ≠ none) :
    (handleDataMigration s pin).1 = .ok () ∧
    (handleDataMigration s pin).2.ls STORE_VERSION_KEY
        = some (.json (.num version)) ∧
    (handleDataMigration s pin).2.ls "wallet:id" = s.ls "wallet:id" ∧
    (∀ k, k ≠ STORE_VERSION_KEY →
      (handleDataMigration s pin).2.ls k = s.ls k) ∧
    (handleDataMigration s pin).2.accessMap = s.accessMap := by
  have h1 := handleDataMigration_versioned s pin h
  exact ⟨h1.1, h1.2.1, h1.2.2.1 "wallet:id" (by decide), h1.2.2.1,
    h1.2.2.2.1⟩

/-- Witness for C3 at a concrete versioned state. -/
theorem handleDataMigration_noop_witness :
    (handleDataMigration versionedState "0000").1 = .ok () ∧
    (handleDataMigration versionedState "0000").2.ls STORE_VERSION_KEY
        = some (.json (.num version)) ∧
    (handleDataMigration versionedState "0000").2.ls "wallet:id"
        = versionedState.ls "wallet:id" ∧
    (handleDataMigration versionedState "0000").2.ls SERVER_KEY
        = versionedState.ls SERVER_KEY ∧
    (handleDataMigration versionedState "0000").2.accessMap
        = versionedState.accessMap := by
  have h := handleDataMigration_noop_when_versioned versionedState "0000"
    (by decide)
  exact ⟨h.1, h.2.1, h.2.2.1, h.2.2.2.1 SERVER_KEY (by decide), h.2.2.2.2⟩

/-- Lazily constructing the storage handle right after persisting a
truthy wallet id yields a handle for that id. -/
theorem getStorage_fresh (s : State) (w : String)
    (hh : s.handle = none) (ht : Val.truthy (.str w) = true) :
    getStorage (setWalletId s w) =
      (some w, { setWalletId s w with handle := some w }) := by
  have hhandle : (setWalletId s w).handle = none := by
    rw [setWalletId, setItem_handle]; exact hh
  have hread : getItem (setWalletId s w) "wallet:id"
      = (some (.str w), setWalletId s w) :=
    getItem_of_json _ _ _ (by rw [setWalletId, setItem_ls]; simp)
  unfold getStorage getWalletId
  rw [hhandle]
  simp only
  rw [hread]
  simp [ht]

/-- Version stamping of `initStorage`: on success the version key is
stamped; on failure it is untouched. -/
theorem initStorage_version (s : State) (seed password pin passphrase :
    String) (h : s.ls STORE_VERSION_KEY = some (.json (.num version))) :
    (initStorage s seed password pin passphrase).2.ls STORE_VERSION_KEY
      = some (.json (.num version)) := by
  simp only [initStorage]
  split
  · rw [setHardwareWallet, setItem_ls, if_neg (by decide)]
    exact h
  · rename_i ad heq
    split
    · rename_i s4 hst
      rw [getStorage_fresh _ _ rfl (getWalletIdFromXPub_truthy ad.xpubkey)]
        at hst
      simp at hst
    · rw [updateStorageVersion, setItem_ls]
      simp

/-- Version stamping of `initHWStorage`. -/
theorem initHWStorage_version (s : State) (xpub : String) :
    (initHWStorage s xpub).2.ls STORE_VERSION_KEY
      = some (.json (.num version)) := by
  simp only [initHWStorage]
  split
  · rename_i s4 hst
    rw [getStorage_fresh _ _ rfl (getWalletIdFromXPub_truthy
      (generateAccessDataFromXpub xpub).xpubkey)] at hst
    simp at hst
  · rw [updateStorageVersion, setItem_ls]
    simp

/-- `cleanWallet` does not touch the version key. -/
theorem cleanWallet_version (s : State) :
    (cleanWallet s).ls STORE_VERSION_KEY = s.ls STORE_VERSION_KEY := by
  unfold cleanWallet
  simp only
  rw [removeItem_ls, if_neg (by decide), removeItem_ls,
    if_neg (by decide), removeItem_ls, if_neg (by decide)]

/-- C8 (amended): once the storage version holds the current schema
constant, `handleDataMigration`, `initStorage` (successful or failing),
`initHWStorage` and `cleanWallet` never decrease it or make it absent —
they leave it at the current constant; `resetStorage`, however, removes
the storage-version key, reverting it to absent. -/
theorem storageVersion_monotone_outside_reset (s : State)
    (pin seed password passphrase xpub : String)
    (h : s.ls STORE_VERSION_KEY = some (.json (.num version))) :
    (handleDataMigration s pin).2.ls STORE_VERSION_KEY
        = some (.json (.num version)) ∧
    (initStorage s seed password pin passphrase).2.ls STORE_VERSION_KEY
        = some (.json (.num version)) ∧
    (initHWStorage s xpub).2.ls STORE_VERSION_KEY
        = some (.json (.num version)) ∧
    (cleanWallet s).ls STORE_VERSION_KEY = some (.json (.num version)) ∧
    (getStorageVersion (resetStorage s)).1 = none := by
  refine ⟨?_, initStorage_version s seed password pin passphrase h,
    initHWStorage_version s xpub, ?_, ?_⟩
  · have hv : (getStorageVersion s).1 ≠ none := by
      unfold getStorageVersion
      rw [getItem_of_json _ _ _ h]
      simp
    exact (handleDataMigration_versioned s pin hv).2.1
  · rw [cleanWallet_version]; exact h
  · unfold getStorageVersion
    have : (resetStorage s).ls STORE_VERSION_KEY = none := by
      rw [resetStorage_ls]
      simp [storageKeys]
    rw [getItem_of_none _ _ this]

/-- Witness for C8 at a concrete versioned state. -/
theorem storageVersion_monotone_witness :
    (handleDataMigration versionedState "1234").2.ls STORE_VERSION_KEY
        = some (.json (.num version)) ∧
    (initStorage versionedState "seed words" "pw" "1234" "").2.ls
        STORE_VERSION_KEY = some (.json (.num version)) ∧
    (initHWStorage versionedState "xpub-hw").2.ls STORE_VERSION_KEY
        = some (.json (.num version)) ∧
    (cleanWallet versionedState).ls STORE_VERSION_KEY
        = some (.json (.num version)) ∧
    (getStorageVersion (resetStorage versionedState)).1 = none :=
  storageVersion_monotone_outside_reset versionedState "1234" "seed words"
    "pw" "" "xpub-hw" (by decide)

/-- Counterexample to C8 as stated: a state whose storage version is set
to the current constant loses it entirely after `resetStorage` — the
version is reverted to absent. -/
theorem resetStorage_clears_storage_version :
    (getStorageVersion versionedState).1 = some (.num 1) ∧
    (getStorageVersion (resetStorage versionedState)).1 = none := by
  decide

theorem walletPrefixed_ne_storeVersion (k : String)
    (h : walletPrefixed k = true) : k ≠ STORE_VERSION_KEY := by
  intro heq
  subst heq
  exact absurd h (by decide)

/-- A failing decryption makes `migrateAccessData` throw with the store
untouched: the throw happens before any write. -/
theorem migrateAccessData_fail (s : State) (r : LegacyAccessData)
    (pin : String)
    (hacc : s.ls "wallet:accessData" = some (.json (.legacy r)))
    (hfail : legacyDecryptFails r pin = true) :
    ∃ e, migrateAccessData s pin = (.error e, s) := by
  have hg := getItem_of_json s "wallet:accessData" (.legacy r) hacc
  simp only [migrateAccessData, hg]
  cases hA : r.acctPathMainKey with
  | none =>
    cases hB : r.authKey with
    | none => simp [legacyDecryptFails, optDecryptFails, hA, hB] at hfail
    | some c2 =>
      cases hd : decryptCJS c2 pin with
      | none =>
        refine ⟨"Malformed UTF-8 data", ?_⟩
        simp [hd]
      | some pl =>
        simp [legacyDecryptFails, optDecryptFails, hA, hB, hd] at hfail
  | some c =>
    cases hd : decryptCJS c pin with
    | none =>
      refine ⟨"Malformed UTF-8 data", ?_⟩
      simp [hd]
    | some pl =>
      cases hB : r.authKey with
      | none => simp [legacyDecryptFails, optDecryptFails, hA, hB, hd] at hfail
      | some c2 =>
        cases hd2 : decryptCJS c2 pin with
        | none =>
          refine ⟨"Malformed UTF-8 data", ?_⟩
          simp [hd, hd2]
        | some pl2 =>
          simp [legacyDecryptFails, optDecryptFails, hA, hB, hd, hd2] at hfail

/-- C1: with the storage version absent and a legacy record present, a
PIN under which decryption of the legacy secret fields fails makes
`handleDataMigration` throw before any destructive deletion: the whole
state is unchanged — the legacy record is still there, every
`wallet:`-prefixed flat key is untouched, and the storage version is
still absent. -/
theorem handleDataMigration_wrong_pin_aborts (s : State)
    (r : LegacyAccessData) (pin : String)
    (hver : s.ls STORE_VERSION_KEY = none)
    (hacc : s.ls "wallet:accessData" = some (.json (.legacy r)))
    (hfail : legacyDecryptFails r pin = true) :
    (∃ e, (handleDataMigration s pin).1 = .error e) ∧
    (handleDataMigration s pin).2 = s ∧
    (handleDataMigration s pin).2.ls "wallet:accessData"
        = some (.json (.legacy r)) ∧
    (∀ k, walletPrefixed k = true →
      (handleDataMigration s pin).2.ls k = s.ls k) ∧
    (handleDataMigration s pin).2.ls STORE_VERSION_KEY = none := by
  obtain ⟨e, he⟩ := migrateAccessData_fail s r pin hacc hfail
  have hv : getStorageVersion s = (none, s) := by
    unfold getStorageVersion
    exact getItem_of_none s _ hver
  have hmain : handleDataMigration s pin = (.error e, s) := by
    simp only [handleDataMigration, hv, he]
  rw [hmain]
  exact ⟨⟨e, rfl⟩, rfl, hacc, fun k _ => rfl, hver⟩

/-- Witness for C1: wrong PIN `"0000"` against `legacyFull` (whose
auxiliary keys decrypt only under `"1234"`). -/
theorem handleDataMigration_wrong_pin_witness :
    (∃ e, (handleDataMigration legacyState "0000").1 = .error e) ∧
    (handleDataMigration legacyState "0000").2 = legacyState ∧
    (handleDataMigration legacyState "0000").2.ls "wallet:accessData"
        = some (.json (.legacy legacyFull)) ∧
    (handleDataMigration legacyState "0000").2.ls "wallet:tokens"
        = legacyState.ls "wallet:tokens" ∧
    (handleDataMigration legacyState "0000").2.ls STORE_VERSION_KEY
        = none := by
  have h := handleDataMigration_wrong_pin_aborts legacyState legacyFull
    "0000" (by decide) (by decide) (by decide)
  exact ⟨h.1, h.2.1, h.2.2.1, h.2.2.2.1 "wallet:tokens" (by decide),
    h.2.2.2.2⟩

/-- When every present auxiliary key decrypts under `pin`,
`migrateAccessData` succeeds without touching the store, returning
`mkMigrated` applied to the re-encrypted auxiliary keys. -/
theorem migrateAccessData_ok (s : State) (r : LegacyAccessData)
    (pin : String)
    (hacc : s.ls "wallet:accessData" = some (.json (.legacy r)))
    (hok : legacyDecryptFails r pin = false) :
    ∃ a b, migrateAccessData s pin = (.ok (mkMigrated r a b), s) ∧
      (r.acctPathMainKey = none → a = none) ∧
      (∀ c, r.acctPathMainKey = some c →
        ∃ pl, decryptCJS c pin = some pl ∧ a = some (encryptData pl pin)) ∧
      (r.authKey = none → b = none) ∧
      (∀ c, r.authKey = some c →
        ∃ pl, decryptCJS c pin = some pl ∧ b = some (encryptData pl pin)) := by
  have hg := getItem_of_json s "wallet:accessData" (.legacy r) hacc
  simp only [legacyDecryptFails, Bool.or_eq_false_iff] at hok
  obtain ⟨hok1, hok2⟩ := hok
  simp only [migrateAccessData, hg]
  cases hA : r.acctPathMainKey with
  | none =>
    cases hB : r.authKey with
    | none =>
      exact ⟨none, none, by simp, fun _ => rfl,
        fun c hc => Option.noConfusion hc, fun _ => rfl,
        fun c hc => Option.noConfusion hc⟩
    | some c2 =>
      simp only [optDecryptFails, hB] at hok2
      cases hd : decryptCJS c2 pin with
      | none => rw [hd] at hok2; simp at hok2
      | some pl =>
        refine ⟨none, some (encryptData pl pin), by simp [hd],
          fun _ => rfl, fun c hc => Option.noConfusion hc,
          fun h => Option.noConfusion h, ?_⟩
        intro c hc
        injection hc with hc2
        subst hc2
        exact ⟨pl, hd, rfl⟩
  | some c =>
    simp only [optDecryptFails, hA] at hok1
    cases hd : decryptCJS c pin with
    | none => rw [hd] at hok1; simp at hok1
    | some pl =>
      cases hB : r.authKey with
      | none =>
        refine ⟨some (encryptData pl pin), none, by simp [hd],
          fun h => Option.noConfusion h, ?_, fun _ => rfl,
          fun c2 hc => Option.noConfusion hc⟩
        intro c2 hc
        injection hc with hc2
        subst hc2
        exact ⟨pl, hd, rfl⟩
      | some c2 =>
        simp only [optDecryptFails, hB] at hok2
        cases hd2 : decryptCJS c2 pin with
        | none => rw [hd2] at hok2; simp at hok2
        | some pl2 =>
          refine ⟨some (encryptData pl pin), some (encryptData pl2 pin),
            by simp [hd, hd2], fun h => Option.noConfusion h, ?_,
            fun h => Option.noConfusion h, ?_⟩
          · intro c3 hc
            injection hc with hc3
            subst hc3
            exact ⟨pl, hd, rfl⟩
          · intro c3 hc
            injection hc with hc3
            subst hc3
            exact ⟨pl2, hd2, rfl⟩

theorem registerTokens_accessMap (s : State) (w : String)
    (ts : List Token) : (registerTokens s w ts).accessMap = s.accessMap := by
  induction ts generalizing s with
  | nil => rfl
  | cons t ts ih =>
    simp only [registerTokens, List.foldl_cons] at ih ⊢
    rw [ih]
    rfl

theorem handleMigrationOldRegisteredTokens_accessMap (s : State)
    (w : String) :
    (handleMigrationOldRegisteredTokens s w).accessMap = s.accessMap := by
  simp only [handleMigrationOldRegisteredTokens]
  split
  · rw [registerTokens_accessMap]
    exact getItem_accessMap s _
  · exact getItem_accessMap s _

theorem backupStep_accessMap (s : State) :
    (backupStep s).accessMap = s.accessMap := by
  simp only [backupStep]
  split
  · rw [markBackupDone, setItem_accessMap]
    exact getItem_accessMap s _
  · exact getItem_accessMap s _

@[simp] theorem deleteWalletPrefixed_accessMap (s : State) :
    (deleteWalletPrefixed s).accessMap = s.accessMap := rfl

theorem deleteWalletPrefixed_ls (s : State) (k : String) :
    (deleteWalletPrefixed s).ls k =
      if (k != "wallet:id") && walletPrefixed k then none
      else s.ls k := rfl

theorem saveAccessData_self (s : State) (w : String) (ad : AccessData) :
    (saveAccessData s w ad).accessMap w = some ad := by
  simp [saveAccessData]

/-- The effect of the tail of the migration branch: the record is
persisted under the derived wallet id, the version is stamped, and every
`wallet:`-prefixed key except `wallet:id` ends up removed. -/
theorem migrationTail_spec (s : State) (ad : AccessData) :
    (migrationTail s ad).1 = .ok () ∧
    (migrationTail s ad).2.accessMap (getWalletIdFromXPub ad.xpubkey)
        = some ad ∧
    (migrationTail s ad).2.ls STORE_VERSION_KEY
        = some (.json (.num version)) ∧
    (∀ k, walletPrefixed k = true → k ≠ "wallet:id" →
      (migrationTail s ad).2.ls k = none) := by
  simp only [migrationTail]
  rw [getStorage_fresh _ _ rfl (getWalletIdFromXPub_truthy ad.xpubkey)]
  simp only
  refine ⟨trivial, ?_, ?_, ?_⟩
  · rw [updateStorageVersion, setItem_accessMap,
      deleteWalletPrefixed_accessMap, backupStep_accessMap,
      handleMigrationOldRegisteredTokens_accessMap]
    exact saveAccessData_self _ _ ad
  · rw [updateStorageVersion, setItem_ls]
    simp
  · intro k hk hne
    rw [updateStorageVersion, setItem_ls,
      if_neg (walletPrefixed_ne_storeVersion k hk),
      deleteWalletPrefixed_ls]
    have : (k != "wallet:id") = true := by simp [hne]
    rw [this, hk]
    rfl

/-- C4 (amended): when the storage version is absent and a legacy record
is present, the migration decrypts — when present — the legacy record's
`acctPathMainKey` and `authKey` fields with the supplied PIN and
re-encrypts each of them as an encrypted secret carrying explicit
hash/salt/iterations/hasher metadata; the `words` field is NOT decrypted:
its ciphertext, like the `mainKey` ciphertext, is carried over unchanged
and wrapped with the legacy record's stored hash/salt/iteration
metadata. -/
theorem migrateAccessData_reencrypts_aux_keys_only (s : State)
    (r : LegacyAccessData) (pin : String)
    (hacc : s.ls "wallet:accessData" = some (.json (.legacy r)))
    (hok : legacyDecryptFails r pin = false) :
    migrateAccessData s pin
        = (.ok (mkMigrated r (migAcct r pin) (migAuth r pin)), s) ∧
    (mkMigrated r (migAcct r pin) (migAuth r pin)).words
        = { data := r.words, hash := r.hashPasswd, salt := r.saltPasswd,
            iterations := r.hashIterations,
            pbkdf2Hasher := r.pbkdf2Hasher } ∧
    (mkMigrated r (migAcct r pin) (migAuth r pin)).mainKey
        = { data := r.mainKey, hash := r.hash, salt := r.salt,
            iterations := r.hashIterations,
            pbkdf2Hasher := r.pbkdf2Hasher } ∧
    (∀ c pl, r.acctPathMainKey = some c → decryptCJS c pin = some pl →
      migAcct r pin = some (encryptData pl pin)) ∧
    (r.acctPathMainKey = none → migAcct r pin = none) ∧
    (∀ c pl, r.authKey = some c → decryptCJS c pin = some pl →
      migAuth r pin = some (encryptData pl pin)) ∧
    (r.authKey = none → migAuth r pin = none) := by
  obtain ⟨a, b, hmig, hA0, hA1, hB0, hB1⟩ :=
    migrateAccessData_ok s r pin hacc hok
  have ha : a = migAcct r pin := by
    cases hc : r.acctPathMainKey with
    | none => rw [hA0 hc, migAcct, hc]; rfl
    | some c =>
      obtain ⟨pl, hd, hav⟩ := hA1 c hc
      rw [hav, migAcct, hc]
      simp [hd]
  have hb : b = migAuth r pin := by
    cases hc : r.authKey with
    | none => rw [hB0 hc, migAuth, hc]; rfl
    | some c =>
      obtain ⟨pl, hd, hbv⟩ := hB1 c hc
      rw [hbv, migAuth, hc]
      simp [hd]
  rw [ha, hb] at hmig
  refine ⟨hmig, rfl, rfl, ?_, ?_, ?_, ?_⟩
  · intro c pl hc hd
    rw [migAcct, hc]
    simp [hd]
  · intro hc
    rw [migAcct, hc]
    rfl
  · intro c pl hc hd
    rw [migAuth, hc]
    simp [hd]
  · intro hc
    rw [migAuth, hc]
    rfl

/-- Witness for C4 (amended) at `legacyFull` with the correct PIN. -/
theorem migrateAccessData_reencrypts_witness :
    migrateAccessData legacyState "1234"
        = (.ok (mkMigrated legacyFull (migAcct legacyFull "1234")
            (migAuth legacyFull "1234")), legacyState) ∧
    (mkMigrated legacyFull (migAcct legacyFull "1234")
        (migAuth legacyFull "1234")).words
        = { data := legacyFull.words, hash := legacyFull.hashPasswd,
            salt := legacyFull.saltPasswd,
            iterations := legacyFull.hashIterations,
            pbkdf2Hasher := legacyFull.pbkdf2Hasher } ∧
    migAcct legacyFull "1234"
        = some (encryptData "acct-xprv" "1234") ∧
    migAuth legacyFull "1234"
        = some (encryptData "auth-xprv" "1234") := by
  have h := migrateAccessData_reencrypts_aux_keys_only legacyState
    legacyFull "1234" (by decide) (by decide)
  exact ⟨h.1, h.2.1,
    h.2.2.2.1 ⟨"acct-xprv", "1234"⟩ "acct-xprv" (by decide) (by decide),
    h.2.2.2.2.2.1 ⟨"auth-xprv", "1234"⟩ "auth-xprv" (by decide) (by decide)⟩

/-- Counterexample to C4 as stated: for `legacyBare` (seed words
encrypted under the password `"password1"`) and the supplied PIN
`"1234"`, decrypting the `words` ciphertext with the PIN fails, yet the
migration succeeds and the migrated `words.data` is the original
ciphertext unchanged — the migration neither decrypts nor re-encrypts the
`words` field with the supplied PIN. -/
theorem migration_does_not_decrypt_words :
    decryptCJS legacyBare.words "1234" = none ∧
    migratedWordsData legacyBareState "1234" = some legacyBare.words := by
  decide

/-- C5: with the storage version absent, a legacy record present and a
PIN under which every present legacy secret decrypts, the migration
succeeds: the persisted access data has `walletType = P2PKH`,
`walletFlags = 0` and the legacy record's xpubkey; the storage version is
stamped to the current schema constant; and every flat key prefixed
`wallet:` except `wallet:id` is removed. -/
theorem handleDataMigration_success (s : State) (r : LegacyAccessData)
    (pin : String)
    (hver : s.ls STORE_VERSION_KEY = none)
    (hacc : s.ls "wallet:accessData" = some (.json (.legacy r)))
    (hok : legacyDecryptFails r pin = false) :
    (handleDataMigration s pin).1 = .ok () ∧
    (∃ ad, (handleDataMigration s pin).2.accessMap
        (getWalletIdFromXPub r.xpubkey) = some ad ∧
      ad.walletType = .P2PKH ∧ ad.walletFlags = 0 ∧
      ad.xpubkey = r.xpubkey) ∧
    (handleDataMigration s pin).2.ls STORE_VERSION_KEY
        = some (.json (.num version)) ∧
    (∀ k, walletPrefixed k = true → k ≠ "wallet:id" →
      (handleDataMigration s pin).2.ls k = none) := by
  obtain ⟨a, b, hmig, -, -, -, -⟩ := migrateAccessData_ok s r pin hacc hok
  have hv : getStorageVersion s = (none, s) := by
    unfold getStorageVersion
    exact getItem_of_none s _ hver
  have hmain : handleDataMigration s pin
      = migrationTail s (mkMigrated r a b) := by
    simp only [handleDataMigration, hv, hmig]
  have hspec := migrationTail_spec s (mkMigrated r a b)
  rw [hmain]
  refine ⟨hspec.1, ⟨mkMigrated r a b, ?_, rfl, rfl, rfl⟩,
    hspec.2.2.1, hspec.2.2.2⟩
  exact hspec.2.1

/-- Witness for C5: `legacyFull` migrated with the correct PIN. -/
theorem handleDataMigration_success_witness :
    (handleDataMigration legacyState "1234").1 = .ok () ∧
    (∃ ad, (handleDataMigration legacyState "1234").2.accessMap
        (getWalletIdFromXPub legacyFull.xpubkey) = some ad ∧
      ad.walletType = .P2PKH ∧ ad.walletFlags = 0 ∧
      ad.xpubkey = legacyFull.xpubkey) ∧
    (handleDataMigration legacyState "1234").2.ls STORE_VERSION_KEY
        = some (.json (.num version)) ∧
    (handleDataMigration legacyState "1234").2.ls "wallet:accessData"
        = none := by
  have h := handleDataMigration_success legacyState legacyFull "1234"
    (by decide) (by decide) (by decide)
  exact ⟨h.1, h.2.1, h.2.2.1,
    h.2.2.2 "wallet:accessData" (by decide) (by decide)⟩

/-- C2: when seed generation / key derivation fails, `initStorage`
surfaces the error, the wallet identity key is not written, the facade is
not written, and no failing execution creates a persisted wallet identity
pointing at absent access data (the invariant is preserved). -/
theorem initStorage_fail_no_partial_persist (s : State)
    (seed password pin passphrase e : String)
    (h : generateAccessDataFromSeed seed pin passphrase password
      s.netName = .error e) :
    (initStorage s seed password pin passphrase).1 = .error e ∧
    (initStorage s seed password pin passphrase).2.ls "wallet:id"
        = s.ls "wallet:id" ∧
    (initStorage s seed password pin passphrase).2.accessMap
        = s.accessMap ∧
    (walletIdInv s →
      walletIdInv (initStorage s seed password pin passphrase).2) := by
  have hnet : (setHardwareWallet { s with handle := none } false).netName
      = s.netName := rfl
  have hmain : initStorage s seed password pin passphrase
      = (.error e, setHardwareWallet { s with handle := none } false) := by
    simp only [initStorage]
    rw [hnet, h]
  rw [hmain]
  have hid : (setHardwareWallet { s with handle := none } false).ls
      "wallet:id" = s.ls "wallet:id" := by
    rw [setHardwareWallet, setItem_ls, if_neg (by decide)]
  refine ⟨rfl, hid, rfl, ?_⟩
  intro hinv w hw ht
  rw [hid] at hw
  exact hinv w hw ht

/-- Witness for C2: an invalid (empty) seed. -/
theorem initStorage_fail_witness :
    (initStorage emptyState "" "pw" "1234" "").1 = .error "Invalid words" ∧
    (initStorage emptyState "" "pw" "1234" "").2.ls "wallet:id"
        = emptyState.ls "wallet:id" ∧
    (initStorage emptyState "" "pw" "1234" "").2.accessMap
        = emptyState.accessMap := by
  have h := initStorage_fail_no_partial_persist emptyState "" "pw" "1234"
    "" "Invalid words" rfl
  exact ⟨h.1, h.2.1, h.2.2.1⟩

/-- C7: `checkPin` accepts both historical access-data shapes: on the
legacy flat shape it normalizes the bare `mainKey` ciphertext and the
flat `hash`/`salt`/`hashIterations` metadata into an encrypted-secret
record and returns the boolean verdict of the password check — `false`,
not an exception, on a wrong PIN; on the current nested shape it checks
`mainKey` directly, again returning `false` on a wrong PIN; it throws
exactly when no access data of either format is available. -/
theorem checkPin_shape_tolerant (s : State) (pin : String) :
    (∀ r, (getAvailableAccessData s).1 = some (AvailAccess.legacy r) →
      (checkPin s pin).1 = .ok (checkPassword
        { data := r.mainKey, hash := r.hash, salt := r.salt,
          iterations := r.hashIterations,
          pbkdf2Hasher := r.pbkdf2Hasher } pin)) ∧
    (∀ r pin0, (getAvailableAccessData s).1 = some (AvailAccess.legacy r) →
      r.hash = hashFn pin0 r.salt r.hashIterations → pin ≠ pin0 →
      (checkPin s pin).1 = .ok false) ∧
    (∀ ad, (getAvailableAccessData s).1 = some (AvailAccess.current ad) →
      (checkPin s pin).1 = .ok (checkPassword ad.mainKey pin)) ∧
    (∀ ad pin0,
      (getAvailableAccessData s).1 = some (AvailAccess.current ad) →
      ad.mainKey.hash = hashFn pin0 ad.mainKey.salt ad.mainKey.iterations →
      pin ≠ pin0 → (checkPin s pin).1 = .ok false) ∧
    ((getAvailableAccessData s).1 = none →
      ∃ e, (checkPin s pin).1 = .error e) := by
  cases hga : getAvailableAccessData s with
  | mk a s1 =>
    cases a with
    | none =>
      refine ⟨?_, ?_, ?_, ?_, ?_⟩
      · intro r hr; simp at hr
      · intro r pin0 hr _ _; simp at hr
      · intro ad hr; simp at hr
      · intro ad pin0 hr _ _; simp at hr
      · intro _
        exact ⟨"TypeError: cannot read mainKey of null",
          by simp only [checkPin, hga]⟩
    | some aa =>
      cases aa with
      | legacy r =>
        have hck : (checkPin s pin).1 = .ok (checkPassword
            { data := r.mainKey, hash := r.hash, salt := r.salt,
              iterations := r.hashIterations,
              pbkdf2Hasher := r.pbkdf2Hasher } pin) := by
          simp only [checkPin, hga]
        refine ⟨?_, ?_, ?_, ?_, ?_⟩
        · intro r2 hr
          simp at hr
          subst hr
          exact hck
        · intro r2 pin0 hr hhash hne
          simp at hr
          subst hr
          rw [hck]
          have hfalse : checkPassword
              { data := r.mainKey, hash := r.hash, salt := r.salt,
                iterations := r.hashIterations,
                pbkdf2Hasher := r.pbkdf2Hasher } pin = false := by
            simp only [checkPassword, hashFn, hhash,
              decide_eq_false_iff_not]
            intro hcontra
            exact hne (congrArg Prod.fst hcontra).symm
          rw [hfalse]
        · intro ad hr; simp at hr
        · intro ad pin0 hr _ _; simp at hr
        · intro hr; simp at hr
      | current ad =>
        have hck : (checkPin s pin).1
            = .ok (checkPassword ad.mainKey pin) := by
          simp only [checkPin, hga]
        refine ⟨?_, ?_, ?_, ?_, ?_⟩
        · intro r hr; simp at hr
        · intro r pin0 hr _ _; simp at hr
        · intro ad2 hr
          simp at hr
          subst hr
          exact hck
        · intro ad2 pin0 hr hhash hne
          simp at hr
          subst hr
          rw [hck]
          have hfalse : checkPassword ad.mainKey pin = false := by
            simp only [checkPassword, hashFn, hhash,
              decide_eq_false_iff_not]
            intro hcontra
            exact hne (congrArg Prod.fst hcontra).symm
          rw [hfalse]
        · intro hr; simp at hr
      | other v =>
        refine ⟨?_, ?_, ?_, ?_, ?_⟩
        · intro r hr; simp at hr
        · intro r pin0 hr _ _; simp at hr
        · intro ad hr; simp at hr
        · intro ad pin0 hr _ _; simp at hr
        · intro hr; simp at hr

/-- Witness for C7: a wrong PIN against the legacy record yields
`.ok false` — a boolean, not an exception. -/
theorem checkPin_shape_tolerant_witness :
    (checkPin legacyState "0000").1 = .ok false := by
  have h := checkPin_shape_tolerant legacyState "0000"
  exact h.2.1 legacyFull "1234" (by decide) (by decide) (by decide)

end LocalStorageStore
